import Mathlib

/-!
Verification of the KServe v2 request envelope codec
(`ts/torch_handler/request_envelope/kservev2.py`).

The Python module is shallowly embedded: JSON/Python values become the
inductive `JVal`, the request context becomes the structure `Context`,
dictionaries become association lists looked up by first match (Python
dict keys are unique, so first match agrees with dict lookup), and every
Python operation that can raise becomes an `Except String` computation
whose error message records the exception class.  numpy is modelled only
on the fragment the module exercises: dtype objects carry their
canonical `str()` name and single-character `kind`, and `np.array` is
modelled on homogeneous nestings of scalars (the inputs the serving
pipeline hands to `format_output`), on a 64-bit platform where the
default integer dtype is `int64`.
-/

set_option autoImplicit false

namespace KServeV2

/-- Python/JSON values as handled by the envelope codec.  `null` doubles as
Python `None` (Python's `dict.get` conflates a missing key with an explicit
`None` value, and the module relies on exactly that).  The `bytes` input
branch of `_from_json` (`json.loads` on a bytes payload) is outside this
value domain; no claim concerns byte-encoded bodies. -/
inductive JVal where
  | null
  | bool (b : Bool)
  | int (n : Int)
  | str (s : String)
  | arr (xs : List JVal)
  | obj (kvs : List (String × JVal))
deriving Repr

/-- First-match association-list lookup, the embedding of Python dict
subscript/`get` on dicts with unique keys. -/
def alookup {κ α : Type} [BEq κ] : List (κ × α) → κ → Option α
  | [], _ => none
  | kv :: rest, k => if kv.1 == k then some kv.2 else alookup rest k

/-- Python truthiness on the embedded values (`bool(x)`). -/
def truthy : JVal → Bool
  | .null => false
  | .bool b => b
  | .int n => n != 0
  | .str s => s ≠ ""
  | .arr xs => !xs.isEmpty
  | .obj kvs => !kvs.isEmpty

/-- Python `x or y` on embedded values: `x` when truthy, else `y`. -/
def pyOr (x y : JVal) : JVal := if truthy x then x else y

/-- `_DatatypeToNumpy`: wire datatype tag → numpy type-name string, as the
ordered dict literal in the source. -/
def _DatatypeToNumpy : List (String × String) :=
  [("BOOL", "bool"),
   ("UINT8", "uint8"),
   ("UINT16", "uint16"),
   ("UINT32", "uint32"),
   ("UINT64", "uint64"),
   ("INT8", "int8"),
   ("INT16", "int16"),
   ("INT32", "int32"),
   ("INT64", "int64"),
   ("FP16", "float16"),
   ("FP32", "float32"),
   ("FP64", "float64"),
   ("BYTES", "byte")]

/-- `_NumpyToDatatype`: the inverse dict comprehension
`{value: key for key, value in _DatatypeToNumpy.items()}` followed by the
two fallback insertions `_NumpyToDatatype["object"] = "BYTES"` and
`_NumpyToDatatype["U"] = "BYTES"`.  The forward table's values are
pairwise distinct and neither "object" nor "U" occurs among them, so the
insertion-ordered dict is this association list. -/
def _NumpyToDatatype : List (String × String) :=
  _DatatypeToNumpy.map (fun kv => (kv.2, kv.1)) ++ [("object", "BYTES"), ("U", "BYTES")]

/-- The 13 wire datatype tags (the keys of `_DatatypeToNumpy`). -/
def datatypeTags : List String := _DatatypeToNumpy.map Prod.fst

/-- A numpy dtype object, reduced to the two attributes the module reads:
`str(dtype)` and `dtype.kind`. -/
structure NpDtype where
  name : String
  kind : String
deriving Repr, DecidableEq

/-- Models `np.dtype(s)` for the type-name strings appearing in
`_DatatypeToNumpy`.  numpy canonicalizes each alias: in particular
`np.dtype("byte")` is `dtype('int8')` (numpy's `byte` is the C `signed
char`), so its `str()` is `"int8"`, never `"byte"`.  Kinds follow numpy:
`b` boolean, `u` unsigned integer, `i` signed integer, `f` floating. -/
def np_dtype : String → Option NpDtype
  | "bool" => some ⟨"bool", "b"⟩
  | "uint8" => some ⟨"uint8", "u"⟩
  | "uint16" => some ⟨"uint16", "u"⟩
  | "uint32" => some ⟨"uint32", "u"⟩
  | "uint64" => some ⟨"uint64", "u"⟩
  | "int8" => some ⟨"int8", "i"⟩
  | "int16" => some ⟨"int16", "i"⟩
  | "int32" => some ⟨"int32", "i"⟩
  | "int64" => some ⟨"int64", "i"⟩
  | "float16" => some ⟨"float16", "f"⟩
  | "float32" => some ⟨"float32", "f"⟩
  | "float64" => some ⟨"float64", "f"⟩
  | "byte" => some ⟨"int8", "i"⟩
  | _ => none

/-- `_to_dtype(datatype)`: dict subscript into `_DatatypeToNumpy`
(`KeyError` on a miss) followed by `np.dtype` construction. -/
def _to_dtype (datatype : String) : Except String NpDtype :=
  match alookup _DatatypeToNumpy datatype with
  | none => .error ("KeyError: " ++ datatype)
  | some dtype =>
    match np_dtype dtype with
    | some d => .ok d
    | none => .error ("TypeError: data type " ++ dtype ++ " not understood")

/-- `_to_datatype(dtype)`: look up `str(dtype)` in `_NumpyToDatatype`;
if absent, retry with `dtype.kind`; a second miss is a `KeyError`. -/
def _to_datatype (dtype : NpDtype) : Except String String :=
  let as_str := dtype.name
  let as_str := if (alookup _NumpyToDatatype as_str).isNone then dtype.kind else as_str
  match alookup _NumpyToDatatype as_str with
  | some datatype => .ok datatype
  | none => .error ("KeyError: " ++ as_str)

/-- The per-batch request context (`BaseEnvelope.context`), reduced to the
members the module reads or writes: per-position request headers
(`get_request_header(i, name)` → header string or `None`), per-position
request ids (`get_request_id(i)`), the ad-hoc `input_request_id`
attribute (`none` = attribute absent), the model manifest (`none` =
Python `None`, as on workflow function nodes), and `model_name`. -/
structure Context where
  headers : List ((Nat × String) × String)
  requestIds : List (Nat × String)
  input_request_id : Option JVal
  manifest : Option JVal
  model_name : String
deriving Repr

/-- `context.get_request_header(i, name)`. -/
def Context.get_request_header (ctx : Context) (i : Nat) (name : String) : Option String :=
  alookup ctx.headers (i, name)

/-- `context.get_request_id(i)` (an external accessor; positions without a
recorded id return the empty string). -/
def Context.get_request_id (ctx : Context) (i : Nat) : String :=
  (alookup ctx.requestIds i).getD ""

/-- The `_WorkflowRequestTypeHeader` constant. -/
def _WorkflowRequestTypeHeader : String := "Workflow-Request-Type"

/-- Python `str.lower()` on the header values the module compares, all
ASCII (character-by-character lowercasing). -/
def pyLower (s : String) : String := String.mk (s.data.map Char.toLower)

/-- Python `v.get(key)`: dict lookup returning `None` on a miss;
`AttributeError` when `v` is not a dict. -/
def dictGet (v : JVal) (key : String) : Except String JVal :=
  match v with
  | .obj kvs => .ok ((alookup kvs key).getD .null)
  | _ => .error "AttributeError: no attribute get"

/-- Python `v[0]` as applied by both call sites to `_from_json`'s
result (the nested branch's `[0].get("data")` and the plain branch's
appended `[0]`): first element of a list (or character of a string);
`None` — the value of a missing `inputs`/`outputs` key — is not
subscriptable and raises `TypeError`; a dict raises `KeyError` (our
keys are strings, never `0`); other scalars raise `TypeError`. -/
def pySubscriptZero (v : JVal) : Except String JVal :=
  match v with
  | .arr [] => .error "IndexError: list index out of range"
  | .arr (x :: _) => .ok x
  | .str s =>
    match s.data with
    | [] => .error "IndexError: string index out of range"
    | c :: _ => .ok (.str (String.mk [c]))
  | .obj _ => .error "KeyError: 0"
  | _ => .error "TypeError: object is not subscriptable"

/-- `_from_json(body_list, inputs_key)`.  The body is an already-parsed
JSON value (the `isinstance(..., (bytes, bytearray))` branch re-parses a
byte payload and is outside the modelled value domain).  `"id" in
body_list[0]` requires a dict — every non-dict body raises before or at
the `.get` lookups (membership `TypeError` on scalars, `AttributeError`
at `.get` on lists/strings) — so non-dict bodies are mapped to an error.
When an `"id"` key is present its value is persisted on the context as
`input_request_id`.  The comprehension `[x.get(inputs_key) for x in
body_list][0]` applies `.get` to every element before indexing. -/
def _from_json (ctx : Context) (body_list : List JVal) (inputs_key : String) :
    Except String (Context × JVal) :=
  match body_list with
  | [] => .error "IndexError: list index out of range"
  | b :: _ =>
    match b with
    | .obj kvs =>
      let ctx' :=
        match alookup kvs "id" with
        | some v => { ctx with input_request_id := some v }
        | none => ctx
      match body_list.mapM (fun x => dictGet x inputs_key) with
      | .ok gets => .ok (ctx', gets.headD .null)
      | .error e => .error e
    | _ => .error "TypeError: argument is not a dict"

/-- One entry of the nested dict comprehension:
`self._from_json([body], inputs_key="outputs")[0].get("data")`. -/
def nestedEntry (ctx : Context) (body : JVal) : Except String (Context × JVal) := do
  let (ctx', v) ← _from_json ctx [body] "outputs"
  let first ← pySubscriptZero v
  let d ← dictGet first "data"
  pure (ctx', d)

/-- The nested dict comprehension over `row.items()`, in insertion order,
threading the context through each `_from_json` call. -/
def nestedRow (ctx : Context) (kvs : List (String × JVal)) :
    Except String (Context × List (String × JVal)) :=
  match kvs with
  | [] => .ok (ctx, [])
  | (n, body) :: rest => do
    let (ctx', d) ← nestedEntry ctx body
    let (ctx'', tail) ← nestedRow ctx' rest
    pure (ctx'', (n, d) :: tail)

/-- The non-nested tail of the loop body:
`body_list = [row.get("data") or row.get("body")]` followed by
`data_list.append(self._from_json(body_list, **extra_kwargs)[0])`.  The
call-site `[0]` subscripts `_from_json`'s return (the extracted
descriptor list) a second time, on top of the comprehension's internal
`[...][0]`, so the appended value is the first descriptor — and a `None`
return (missing key) raises a TypeError here, just as on the nested
path. -/
def plainRow (ctx : Context) (row : JVal) (inputs_key : String) :
    Except String (Context × JVal) := do
  let d ← dictGet row "data"
  let b ← dictGet row "body"
  let (ctx', w) ← _from_json ctx [pyOr d b] inputs_key
  let first ← pySubscriptZero w
  .ok (ctx', first)

/-- The body of `_batch_from_json`'s loop for index `i` and row `row`:
read the `Workflow-Request-Type` header at position `i`; when truthy,
switch the extraction key to `"outputs"`, and when additionally
`.lower() == "nested"`, build the per-node dict; otherwise fall through
to the single-body extraction. -/
def processRow (ctx : Context) (i : Nat) (row : JVal) : Except String (Context × JVal) :=
  match ctx.get_request_header i _WorkflowRequestTypeHeader with
  | some wrt =>
    if wrt ≠ "" then
      if pyLower wrt = "nested" then
        match row with
        | .obj kvs =>
          match nestedRow ctx kvs with
          | .ok (ctx', out) => .ok (ctx', .obj out)
          | .error e => .error e
        | _ => .error "AttributeError: no attribute items"
      else plainRow ctx row "outputs"
    else plainRow ctx row "inputs"
  | none => plainRow ctx row "inputs"

/-- The loop of `_batch_from_json`, threading the context and the running
index of `enumerate(rows)`; an exception at any position aborts the
whole batch. -/
def batchFromJsonGo (ctx : Context) (i : Nat) (rows : List JVal) :
    Except String (Context × List JVal) :=
  match rows with
  | [] => .ok (ctx, [])
  | row :: rest =>
    match processRow ctx i row with
    | .error e => .error e
    | .ok (ctx', v) =>
      match batchFromJsonGo ctx' (i + 1) rest with
      | .error e => .error e
      | .ok (ctx'', vs) => .ok (ctx'', v :: vs)

/-- `_batch_from_json(rows)`. -/
def _batch_from_json (ctx : Context) (rows : List JVal) :
    Except String (Context × List JVal) :=
  batchFromJsonGo ctx 0 rows

/-- `parse_input(data)`: logging aside, it is `_batch_from_json`. -/
def parse_input (ctx : Context) (data : List JVal) :
    Except String (Context × List JVal) :=
  _batch_from_json ctx data

/-- A numpy ndarray, reduced to what `_to_json` reads: its shape, its
dtype, and its element sequence in row-major order. -/
structure NdArray where
  shape : List Nat
  dtype : NpDtype
  flatData : List JVal
deriving Repr

/-- numpy's default integer dtype on a 64-bit Linux platform. -/
def int64Dtype : NpDtype := ⟨"int64", "i"⟩

def boolDtype : NpDtype := ⟨"bool", "b"⟩

/-- `np.array([])` defaults to float64. -/
def float64Dtype : NpDtype := ⟨"float64", "f"⟩

def objectDtype : NpDtype := ⟨"object", "O"⟩

mutual

/-- Models `np.array(data)` on homogeneous nestings of scalars — the
values the serving pipeline hands to `format_output`.  Python ints
become the platform default `int64`; a string of length `n` becomes a
zero-dimensional `<Un` array (kind `U`); `None` and dicts become
zero-dimensional object arrays; a list requires every element to
produce a sub-array of identical shape and dtype (mixed-dtype promotion
and ragged inputs are outside the modelled domain; numpy raises
`ValueError` on ragged input). -/
def np_array : JVal → Option NdArray
  | .int n => some ⟨[], int64Dtype, [.int n]⟩
  | .bool b => some ⟨[], boolDtype, [.bool b]⟩
  | .str s => some ⟨[], ⟨"<U" ++ toString s.length, "U"⟩, [.str s]⟩
  | .null => some ⟨[], objectDtype, [.null]⟩
  | .obj kvs => some ⟨[], objectDtype, [.obj kvs]⟩
  | .arr xs =>
    match np_array_list xs with
    | none => none
    | some [] => some ⟨[0], float64Dtype, []⟩
    | some (a :: rest) =>
      if (a :: rest).all (fun b => b.shape == a.shape && b.dtype == a.dtype) then
        some ⟨(a :: rest).length :: a.shape, a.dtype,
              (a :: rest).foldr (fun b acc => b.flatData ++ acc) []⟩
      else
        none

def np_array_list : List JVal → Option (List NdArray)
  | [] => some []
  | x :: xs =>
    match np_array x, np_array_list xs with
    | some a, some as => some (a :: as)
    | _, _ => none

end

/-- `_to_json(data)`: coerce to an ndarray, name the tensor from batch
position 0's `explain` header, record the shape, stamp the datatype via
`_to_datatype`, flatten when the shape is non-empty, and take
`.tolist()` — which yields the bare scalar for a zero-dimensional array
and a flat list after `.flatten()` otherwise. -/
def _to_json (ctx : Context) (data : JVal) : Except String JVal :=
  match np_array data with
  | none => .error "ValueError: could not coerce data to an ndarray"
  | some a =>
    match _to_datatype a.dtype with
    | .error e => .error e
    | .ok datatype =>
      let name := if ctx.get_request_header 0 "explain" = some "True" then "explain" else "predict"
      let dataVal := if a.shape.isEmpty then a.flatData.headD .null else .arr a.flatData
      .ok (.obj [("name", .str name),
                 ("shape", .arr (a.shape.map (fun n => .int (Int.ofNat n)))),
                 ("datatype", .str datatype),
                 ("data", dataVal)])

/-- `_batch_to_json(data)`: `_to_json` over the batch, in order. -/
def _batch_to_json (ctx : Context) (data : List JVal) : Except String (List JVal) :=
  data.mapM (fun item => _to_json ctx item)

/-- The `model_name`/`model_version` fields of the response: read from
`manifest.get("model")` when the manifest is truthy (`if
self.context.manifest:`), else the context's `model_name` alone (the
workflow-function-node fallback, whose manifest is `None`). -/
def modelFieldsOf (ctx : Context) : Except String (List (String × JVal)) :=
  if (ctx.manifest.map truthy).getD false then do
    let m := ctx.manifest.getD .null
    let model ← dictGet m "model"
    let mn ← dictGet model "modelName"
    let mv ← dictGet model "modelVersion"
    .ok [("model_name", mn), ("model_version", mv)]
  else
    .ok [("model_name", JVal.str ctx.model_name)]

/-- The tail of `format_output` once the response id is settled: fill the
model fields, encode the batch under "outputs", and wrap the response
dict in a one-element list. -/
def assembleResponse (ctx1 : Context) (idVal : JVal) (data : List JVal) :
    Except String (Context × JVal) := do
  let modelFields ← modelFieldsOf ctx1
  let outputs ← _batch_to_json ctx1 data
  .ok (ctx1, JVal.arr [JVal.obj (("id", idVal) :: modelFields ++ [("outputs", JVal.arr outputs)])])

/-- `format_output(data)`: take-and-clear the pending `input_request_id`
if present (`hasattr`/`getattr`/`delattr`), else fall back to
`get_request_id(0)`; then assemble the single aggregate response. -/
def format_output (ctx : Context) (data : List JVal) : Except String (Context × JVal) :=
  match ctx.input_request_id with
  | some v => assembleResponse { ctx with input_request_id := none } v data
  | none => assembleResponse ctx (JVal.str (ctx.get_request_id 0)) data

/-- The `id` field of a wire response `[{...}]`. -/
def responseId (r : JVal) : JVal :=
  match r with
  | .arr [.obj kvs] => (alookup kvs "id").getD .null
  | _ => .null

/-- Whether an embedded computation succeeded. -/
def exceptOk {ε α : Type} : Except ε α → Bool
  | .ok _ => true
  | .error _ => false

/-! ### Lemmas about lookups -/

theorem alookup_eq_none_of_not_mem {α : Type} (kvs : List (String × α)) (k : String)
    (h : k ∉ kvs.map Prod.fst) : alookup kvs k = none := by
  induction kvs with
  | nil => rfl
  | cons kv rest ih =>
    simp only [List.map_cons, List.mem_cons, not_or] at h
    have hk : (kv.1 == k) = false := by
      simp only [beq_eq_false_iff_ne, ne_eq]
      exact fun he => h.1 he.symm
    simp only [alookup, hk, Bool.false_eq_true, if_false]
    exact ih h.2

/-! ### Claim C1 — the 13-tag round trip -/

/-- Claim C1 fails at the concrete tag "BYTES": `_to_dtype "BYTES"` is
`np.dtype("byte")`, which numpy canonicalizes to int8, so `_to_datatype`
maps it back to "INT8", not "BYTES". -/
theorem C1_counterexample :
    (_to_dtype "BYTES").bind _to_datatype = Except.ok "INT8" ∧
    (_to_dtype "BYTES").bind _to_datatype ≠ Except.ok "BYTES" := by
  refine ⟨rfl, fun h => ?_⟩
  rw [show (_to_dtype "BYTES").bind _to_datatype = Except.ok "INT8" from rfl] at h
  exact absurd (Except.ok.inj h) (by decide)

/-- Claim C1, amended: applying `_to_dtype` and then `_to_datatype`
returns the original tag for each of the 12 non-BYTES tags of the
enumeration, while "BYTES" comes back as "INT8". -/
theorem C1_roundtrip :
    (∀ t ∈ datatypeTags, t ≠ "BYTES" → (_to_dtype t).bind _to_datatype = Except.ok t) ∧
    (_to_dtype "BYTES").bind _to_datatype = Except.ok "INT8" := by
  refine ⟨fun t ht hne => ?_, rfl⟩
  fin_cases ht <;> first | rfl | exact absurd rfl hne

/-- Witness for C1: the round trip at the concrete tag "FP16". -/
theorem C1_roundtrip_witness :
    (_to_dtype "FP16").bind _to_datatype = Except.ok "FP16" :=
  C1_roundtrip.1 "FP16" (by decide) (by decide)

/-! ### Claim C6 — totality and failure of `_to_dtype` -/

/-- Claim C6: `_to_dtype` succeeds on every one of the 13 enumerated tags
and raises a `KeyError` on every tag outside the enumeration. -/
theorem C6_to_dtype_total :
    (∀ t ∈ datatypeTags, exceptOk (_to_dtype t) = true) ∧
    (∀ t : String, t ∉ datatypeTags → _to_dtype t = Except.error ("KeyError: " ++ t)) := by
  constructor
  · intro t ht
    fin_cases ht <;> rfl
  · intro t ht
    unfold _to_dtype
    rw [alookup_eq_none_of_not_mem _DatatypeToNumpy t ht]

/-- Witness for C6: "BOOL" maps, and the out-of-enumeration tag "FP999"
fails with a KeyError. -/
theorem C6_to_dtype_total_witness :
    exceptOk (_to_dtype "BOOL") = true ∧
    _to_dtype "FP999" = Except.error ("KeyError: " ++ "FP999") :=
  ⟨C6_to_dtype_total.1 "BOOL" (by decide), C6_to_dtype_total.2 "FP999" (by decide)⟩

/-! ### Claim C7 — encode-side fallback to BYTES -/

/-- Claim C7: the generic object dtype and a unicode-string dtype (kind
"U") both encode to "BYTES" through the two fallback table entries, and
`_to_datatype` fails exactly when neither the dtype's str() name nor its
kind classifier matches a table entry. -/
theorem C7_to_datatype_fallback :
    _to_datatype objectDtype = Except.ok "BYTES" ∧
    _to_datatype ⟨"<U5", "U"⟩ = Except.ok "BYTES" ∧
    ∀ d : NpDtype, (∃ e, _to_datatype d = Except.error e) ↔
      (alookup _NumpyToDatatype d.name = none ∧ alookup _NumpyToDatatype d.kind = none) := by
  refine ⟨rfl, rfl, fun d => ?_⟩
  unfold _to_datatype
  cases hn : alookup _NumpyToDatatype d.name with
  | some v => simp [hn]
  | none =>
    cases hk : alookup _NumpyToDatatype d.kind with
    | some v => simp [hn, hk]
    | none => simp [hn, hk]

/-- Witness for C7: a dtype whose name and kind both miss the table
fails. -/
theorem C7_to_datatype_fallback_witness :
    ∃ e, _to_datatype ⟨"weird", "X"⟩ = Except.error e :=
  (C7_to_datatype_fallback.2.2 ⟨"weird", "X"⟩).mpr ⟨rfl, rfl⟩

/-! ### Concrete contexts for witnesses and counterexamples -/

/-- A context with no request headers, a request id at position 0, no
pending identifier and no manifest. -/
def plainCtx : Context :=
  { headers := [], requestIds := [(0, "req-0")], input_request_id := none,
    manifest := none, model_name := "mnist" }

/-- A context whose position-0 `Workflow-Request-Type` header is
"Nested" (mixed case, to exercise the case-insensitive comparison). -/
def nestedCtx : Context :=
  { headers := [((0, _WorkflowRequestTypeHeader), "Nested")], requestIds := [(0, "req-0")],
    input_request_id := none, manifest := none, model_name := "mnist" }

/-- A context whose position-0 `Workflow-Request-Type` header is the
non-nested truthy value "dag". -/
def dagCtx : Context :=
  { headers := [((0, _WorkflowRequestTypeHeader), "dag")], requestIds := [(0, "req-0")],
    input_request_id := none, manifest := none, model_name := "mnist" }

/-! ### Reduction lemmas for the Except monad -/

theorem except_bind_ok {ε α β : Type} (a : α) (f : α → Except ε β) :
    (Except.ok a >>= f) = f a := rfl

theorem except_bind_error {ε α β : Type} (e : ε) (f : α → Except ε β) :
    ((Except.error e : Except ε α) >>= f) = Except.error e := rfl

/-- `_from_json` on a one-element list holding a dict: persist the "id"
value if present, return the value under the extraction key. -/
theorem _from_json_obj (ctx : Context) (kvs : List (String × JVal)) (key : String) :
    _from_json ctx [.obj kvs] key =
      .ok (match alookup kvs "id" with
           | some v => { ctx with input_request_id := some v }
           | none => ctx,
           (alookup kvs key).getD .null) := rfl

/-! ### Claim C2 — which field the standalone path extracts from -/

/-- Claim C2 fails at a concrete row carrying both a truthy "body" field
and a truthy "data" field: the decoded value (the first descriptor of
the extracted list, by the call-site `[0]`) comes from the "data" field,
not from "body" as claimed. -/
theorem C2_counterexample :
    parse_input plainCtx
        [.obj [("data", .obj [("inputs", .arr [.str "from-data"])]),
               ("body", .obj [("inputs", .arr [.str "from-body"])])]] =
      .ok (plainCtx, [.str "from-data"]) ∧
    JVal.str "from-data" ≠ JVal.str "from-body" :=
  ⟨rfl, by simp⟩

/-- Claim C2, amended: on the standalone path (no workflow header) and
on the non-nested workflow path, when the row's "data" field holds a
truthy value the single wire body is taken from "data" — the row decodes
exactly as if its "body" field were absent — so "body" is only a
fallback for an absent or falsy "data". -/
theorem C2_data_precedence :
    (∀ (ctx : Context) (i : Nat) (kvs : List (String × JVal)) (d : JVal),
        ctx.get_request_header i _WorkflowRequestTypeHeader = none →
        alookup kvs "data" = some d → truthy d = true →
        processRow ctx i (.obj kvs) = processRow ctx i (.obj [("data", d)])) ∧
    (∀ (ctx : Context) (i : Nat) (s : String) (kvs : List (String × JVal)) (d : JVal),
        ctx.get_request_header i _WorkflowRequestTypeHeader = some s → s ≠ "" →
        pyLower s ≠ "nested" →
        alookup kvs "data" = some d → truthy d = true →
        processRow ctx i (.obj kvs) = processRow ctx i (.obj [("data", d)])) := by
  have hplain : ∀ (ctx : Context) (kvs : List (String × JVal)) (d : JVal) (key : String),
      alookup kvs "data" = some d → truthy d = true →
      plainRow ctx (.obj kvs) key = plainRow ctx (.obj [("data", d)]) key := by
    intro ctx kvs d key hd ht
    have l1 : dictGet (.obj kvs) "data" = .ok d := by simp [dictGet, hd]
    have l2 : dictGet (.obj kvs) "body" = .ok ((alookup kvs "body").getD .null) := rfl
    have r1 : dictGet (.obj [("data", d)]) "data" = .ok d := rfl
    have r2 : dictGet (.obj [("data", d)]) "body" = .ok .null := rfl
    simp only [plainRow, l1, l2, r1, r2, except_bind_ok, pyOr, ht, if_true]
  constructor
  · intro ctx i kvs d hhdr hd ht
    simp only [processRow, hhdr]
    exact hplain ctx kvs d "inputs" hd ht
  · intro ctx i s kvs d hhdr hs hn hd ht
    simp only [processRow, hhdr]
    rw [if_pos hs, if_pos hs, if_neg hn, if_neg hn]
    exact hplain ctx kvs d "outputs" hd ht

/-- Witness for C2: concrete rows with both fields present and truthy,
on the standalone path and on the non-nested workflow path. -/
theorem C2_data_precedence_witness :
    processRow plainCtx 0 (.obj [("data", .obj [("inputs", .arr [.str "D"])]),
                                 ("body", .obj [("inputs", .arr [.str "B"])])]) =
      processRow plainCtx 0 (.obj [("data", .obj [("inputs", .arr [.str "D"])])]) ∧
    processRow dagCtx 0 (.obj [("data", .obj [("outputs", .arr [.str "D"])]),
                               ("body", .obj [("outputs", .arr [.str "B"])])]) =
      processRow dagCtx 0 (.obj [("data", .obj [("outputs", .arr [.str "D"])])]) :=
  ⟨C2_data_precedence.1 plainCtx 0 _ _ rfl rfl rfl,
   C2_data_precedence.2 dagCtx 0 "dag" _ _ rfl (by decide) (by decide) rfl rfl⟩

/-! ### Claim C3 — nested workflow decode -/

/-- A well-formed nested upstream body: a dict without an "id" key whose
"outputs" value is a non-empty list headed by a dict. -/
def goodNestedBody (b : JVal) : Prop :=
  ∃ kvs fkvs rest, b = .obj kvs ∧ alookup kvs "id" = none ∧
    alookup kvs "outputs" = some (.arr (.obj fkvs :: rest))

/-- The value the nested branch keeps for one upstream node: the "data"
field of the first descriptor under the body's "outputs" key. -/
def firstOutputData (b : JVal) : JVal :=
  match b with
  | .obj kvs =>
    match alookup kvs "outputs" with
    | some (.arr (.obj fkvs :: _)) => (alookup fkvs "data").getD .null
    | _ => .null
  | _ => .null

theorem nestedRow_good (nodes : List (String × JVal)) : ∀ ctx : Context,
    (∀ p ∈ nodes, goodNestedBody p.2) →
    nestedRow ctx nodes = .ok (ctx, nodes.map (fun p => (p.1, firstOutputData p.2))) := by
  induction nodes with
  | nil => intro ctx _; rfl
  | cons p rest ih =>
    intro ctx hb
    obtain ⟨n, body⟩ := p
    obtain ⟨kvs, fkvs, rrest, hb1, hb2, hb3⟩ := hb (n, body) (List.mem_cons_self _ rest)
    have hrest := fun q hq => hb q (List.mem_cons_of_mem (n, body) hq)
    simp only at hb1 hb2 hb3
    subst hb1
    have hEntry : nestedEntry ctx (.obj kvs) = .ok (ctx, (alookup fkvs "data").getD .null) := by
      simp only [nestedEntry, _from_json_obj, hb2, except_bind_ok, hb3, Option.getD_some,
        pySubscriptZero, dictGet]
      rfl
    simp only [nestedRow, hEntry, except_bind_ok]
    rw [ih ctx hrest]
    simp only [except_bind_ok, List.map_cons, firstOutputData, hb3]
    rfl

/-- Claim C3 fails at its own concrete example: with the nested header,
the example row `{"nodeA": {"data": [{"outputs": [...]}]}, "nodeB": ...}`
puts the "outputs" key inside the "data" field, so
`_from_json([body], inputs_key="outputs")` yields None and the trailing
`[0]` raises a TypeError instead of returning the claimed mapping. -/
theorem C3_counterexample :
    parse_input nestedCtx
        [.obj [("nodeA", .obj [("data", .arr [.obj [("outputs", .arr [.int 1])]])]),
               ("nodeB", .obj [("data", .arr [.obj [("outputs", .arr [.int 2])]])])]] =
      .error "TypeError: object is not subscriptable" := rfl

/-- Claim C3, amended: with a nested-workflow header, a row mapping each
upstream node name to a wire body that carries its descriptors directly
under "outputs" decodes to the mapping from each node name to the "data"
field of the first descriptor of that node's "outputs" list. -/
theorem C3_nested_decode (ctx : Context) (i : Nat) (nodes : List (String × JVal)) (s : String)
    (hhdr : ctx.get_request_header i _WorkflowRequestTypeHeader = some s)
    (hne : s ≠ "") (hlow : pyLower s = "nested")
    (hb : ∀ p ∈ nodes, goodNestedBody p.2) :
    processRow ctx i (.obj nodes) =
      .ok (ctx, .obj (nodes.map (fun p => (p.1, firstOutputData p.2)))) := by
  simp only [processRow, hhdr, ne_eq, hne, not_false_eq_true, if_true, hlow, if_pos]
  rw [nestedRow_good nodes ctx hb]

/-- Witness for C3: a two-node nested row with descriptors under
"outputs" decodes to the per-node "data" mapping. -/
theorem C3_nested_decode_witness :
    processRow nestedCtx 0
        (.obj [("nodeA", .obj [("outputs", .arr [.obj [("name", .str "o"),
                                                       ("data", .arr [.int 1, .int 2])]])]),
               ("nodeB", .obj [("outputs", .arr [.obj [("data", .arr [.int 3])]])])]) =
      .ok (nestedCtx, .obj [("nodeA", .arr [.int 1, .int 2]), ("nodeB", .arr [.int 3])]) := by
  have hb : ∀ p ∈ ([("nodeA", JVal.obj [("outputs", .arr [.obj [("name", .str "o"),
                        ("data", .arr [.int 1, .int 2])]])]),
                    ("nodeB", JVal.obj [("outputs", .arr [.obj [("data", .arr [.int 3])]])])] :
                    List (String × JVal)), goodNestedBody p.2 := by
    intro p hp
    fin_cases hp
    · exact ⟨_, _, _, rfl, rfl, rfl⟩
    · exact ⟨_, _, _, rfl, rfl, rfl⟩
  rw [C3_nested_decode nestedCtx 0 _ "Nested" rfl (by decide) rfl hb]
  rfl

/-! ### Claim C5 — scalar and multi-dimensional encoding -/

/-- Claim C5 fails at its own concrete example: encoding the scalar 2
with no explain header yields "data": 2 — a zero-dimensional array's
`.tolist()` is the bare scalar — not the claimed "data": [2]. -/
theorem C5_counterexample :
    _to_json plainCtx (.int 2) =
      .ok (.obj [("name", .str "predict"), ("shape", .arr []),
                 ("datatype", .str "INT64"), ("data", .int 2)]) ∧
    JVal.int 2 ≠ JVal.arr [.int 2] :=
  ⟨rfl, by simp⟩

/-- Claim C5, amended: with the explain header absent, a result that
coerces to an ndarray is encoded with name "predict", its shape, its
mapped datatype, and a "data" field holding the row-major flattening
when the shape is non-empty and the bare unflattened scalar when it is
zero-dimensional; in particular the scalar 2 encodes to
`{"name":"predict","shape":[],"datatype":"INT64","data":2}`. -/
theorem C5_encode_shape (ctx : Context) (v : JVal) (a : NdArray) (dt : String)
    (ha : np_array v = some a) (hdt : _to_datatype a.dtype = .ok dt)
    (hex : ctx.get_request_header 0 "explain" = none) :
    (_to_json ctx v = .ok (.obj [("name", .str "predict"),
        ("shape", .arr (a.shape.map (fun n => .int (Int.ofNat n)))),
        ("datatype", .str dt),
        ("data", if a.shape.isEmpty then a.flatData.headD .null else .arr a.flatData)])) ∧
    _to_json plainCtx (.int 2) =
      .ok (.obj [("name", .str "predict"), ("shape", .arr []),
                 ("datatype", .str "INT64"), ("data", .int 2)]) := by
  refine ⟨?_, rfl⟩
  simp only [_to_json, ha, hdt, hex]
  simp

/-- Witness for C5: a concrete 2×2 result is flattened to a single
four-element sequence with shape [2, 2]. -/
theorem C5_encode_shape_witness :
    _to_json plainCtx (.arr [.arr [.int 1, .int 2], .arr [.int 3, .int 4]]) =
      .ok (.obj [("name", .str "predict"),
        ("shape", .arr (([2, 2] : List Nat).map (fun n => .int (Int.ofNat n)))),
        ("datatype", .str "INT64"),
        ("data", if ([2, 2] : List Nat).isEmpty
                 then ([.int 1, .int 2, .int 3, .int 4] : List JVal).headD .null
                 else .arr [.int 1, .int 2, .int 3, .int 4])]) :=
  (C5_encode_shape plainCtx (.arr [.arr [.int 1, .int 2], .arr [.int 3, .int 4]])
    ⟨[2, 2], int64Dtype, [.int 1, .int 2, .int 3, .int 4]⟩ "INT64" rfl rfl rfl).1

/-! ### Lemmas about `format_output` and the decode of one standalone row -/

theorem truthy_obj_of_alookup {kvs : List (String × JVal)} {k : String} {v : JVal}
    (h : alookup kvs k = some v) : truthy (.obj kvs) = true := by
  cases kvs with
  | nil => simp [alookup] at h
  | cons kv rest => rfl

/-- A successful `assembleResponse` returns its input context and a
response whose "id" field is the supplied id value. -/
theorem assembleResponse_ok (ctx1 : Context) (idVal : JVal) (d : List JVal)
    (ctx2 : Context) (r : JVal) (h : assembleResponse ctx1 idVal d = .ok (ctx2, r)) :
    responseId r = idVal ∧ ctx2 = ctx1 := by
  unfold assembleResponse at h
  cases hmf : modelFieldsOf ctx1 with
  | error e => rw [hmf, except_bind_error] at h; exact absurd h (by simp)
  | ok mf =>
    rw [hmf, except_bind_ok] at h
    cases hout : _batch_to_json ctx1 d with
    | error e => rw [hout, except_bind_error] at h; exact absurd h (by simp)
    | ok os =>
      rw [hout, except_bind_ok] at h
      obtain ⟨hc, hr⟩ := Prod.mk.injEq .. ▸ Except.ok.inj h
      subst hc
      rw [← hr]
      exact ⟨by simp [responseId, alookup], rfl⟩

/-- When a pending `input_request_id` is present, a successful
`format_output` emits it as the response "id" and clears the slot. -/
theorem format_output_pending (ctx : Context) (v : JVal) (d : List JVal)
    (ctx2 : Context) (r : JVal) (hp : ctx.input_request_id = some v)
    (h : format_output ctx d = .ok (ctx2, r)) :
    responseId r = v ∧ ctx2 = { ctx with input_request_id := none } := by
  unfold format_output at h
  rw [hp] at h
  exact assembleResponse_ok _ v d ctx2 r h

/-- Without a pending identifier, a successful `format_output` falls back
to the context's position-0 request id and leaves the context as is. -/
theorem format_output_no_pending (ctx : Context) (d : List JVal)
    (ctx2 : Context) (r : JVal) (hp : ctx.input_request_id = none)
    (h : format_output ctx d = .ok (ctx2, r)) :
    responseId r = .str (ctx.get_request_id 0) ∧ ctx2 = ctx := by
  unfold format_output at h
  rw [hp] at h
  exact assembleResponse_ok ctx _ d ctx2 r h

/-- Decoding one standalone row `{"data": {...}}` whose body carries an
"id" and whose extracted "inputs" value subscripts successfully: the id
is persisted and the first descriptor is appended. -/
theorem processRow_data_obj (ctx : Context) (i : Nat) (kvs : List (String × JVal))
    (v first : JVal)
    (hhdr : ctx.get_request_header i _WorkflowRequestTypeHeader = none)
    (hid : alookup kvs "id" = some v)
    (hin : pySubscriptZero ((alookup kvs "inputs").getD .null) = .ok first) :
    processRow ctx i (.obj [("data", .obj kvs)]) =
      .ok ({ ctx with input_request_id := some v }, first) := by
  have h1 : dictGet (.obj [("data", JVal.obj kvs)]) "data" = .ok (.obj kvs) := rfl
  have h2 : dictGet (.obj [("data", JVal.obj kvs)]) "body" = .ok .null := rfl
  simp only [processRow, hhdr, plainRow, h1, h2, except_bind_ok, pyOr,
    truthy_obj_of_alookup hid, if_true, _from_json_obj, hid, hin]

/-! ### Claim C4 — the identifier handshake -/

/-- Claim C4: decoding a body carrying "id": "abc" persists it on the
context; the next successful `format_output` emits "id": "abc" and
clears the slot; a second successful `format_output` without a fresh
decode falls back to the context's position-0 request id. -/
theorem C4_id_handshake (ctx : Context) (kvs : List (String × JVal)) (x : JVal)
    (xs : List JVal) (d1 d2 : List JVal)
    (hhdr : ctx.get_request_header 0 _WorkflowRequestTypeHeader = none)
    (hid : alookup kvs "id" = some (.str "abc"))
    (hin : alookup kvs "inputs" = some (.arr (x :: xs))) :
    parse_input ctx [.obj [("data", .obj kvs)]] =
      .ok ({ ctx with input_request_id := some (.str "abc") }, [x]) ∧
    ∀ ctx2 r1,
      format_output { ctx with input_request_id := some (.str "abc") } d1 = .ok (ctx2, r1) →
      responseId r1 = .str "abc" ∧ ctx2.input_request_id = none ∧
      ∀ ctx3 r2, format_output ctx2 d2 = .ok (ctx3, r2) →
        responseId r2 = .str (ctx.get_request_id 0) := by
  have hsub : pySubscriptZero ((alookup kvs "inputs").getD .null) = .ok x := by
    rw [hin]
    rfl
  constructor
  · simp only [parse_input, _batch_from_json, batchFromJsonGo,
      processRow_data_obj ctx 0 kvs _ x hhdr hid hsub]
  · intro ctx2 r1 h1
    obtain ⟨hr1, hc2⟩ := format_output_pending _ (.str "abc") d1 ctx2 r1 rfl h1
    subst hc2
    refine ⟨hr1, rfl, fun ctx3 r2 h2 => ?_⟩
    exact (format_output_no_pending _ d2 ctx3 r2 rfl h2).1

/-- Witness for C4: a concrete body with id "abc", encoded twice. -/
theorem C4_id_handshake_witness :
    (parse_input plainCtx [.obj [("data", .obj [("id", .str "abc"),
          ("inputs", .arr [.int 5])])]] =
      .ok ({ plainCtx with input_request_id := some (.str "abc") }, [.int 5]) ∧
    ∀ ctx2 r1,
      format_output { plainCtx with input_request_id := some (.str "abc") } [.int 2] =
        .ok (ctx2, r1) →
      responseId r1 = .str "abc" ∧ ctx2.input_request_id = none ∧
      ∀ ctx3 r2, format_output ctx2 [.int 3] = .ok (ctx3, r2) →
        responseId r2 = .str (plainCtx.get_request_id 0)) :=
  C4_id_handshake plainCtx [("id", .str "abc"), ("inputs", .arr [.int 5])] (.int 5) []
    [.int 2] [.int 3] rfl rfl rfl

/-! ### Claim C9 — missing inputs/outputs keys -/

/-- The single-body extraction itself is tolerant: a dict body lacking
the extraction key extracts to the absent value without an error. -/
theorem _from_json_missing_key (ctx : Context) (bkvs : List (String × JVal)) (key : String)
    (hkey : alookup bkvs key = none) :
    Except.map Prod.snd (_from_json ctx [.obj bkvs] key) = .ok .null := by
  simp only [_from_json_obj, hkey, Option.getD_none, Except.map]

/-- Decoding a standalone-shaped row whose non-empty dict body lacks the
extraction key: the call-site `[0]` subscripts the absent value and
raises a TypeError. -/
theorem plainRow_missing_key_raises (ctx : Context) (bkvs : List (String × JVal))
    (key : String) (hne : bkvs ≠ []) (hkey : alookup bkvs key = none) :
    plainRow ctx (.obj [("data", .obj bkvs)]) key =
      .error "TypeError: object is not subscriptable" := by
  have h1 : dictGet (.obj [("data", JVal.obj bkvs)]) "data" = .ok (.obj bkvs) := rfl
  have h2 : dictGet (.obj [("data", JVal.obj bkvs)]) "body" = .ok .null := rfl
  have ht : truthy (.obj bkvs) = true := by
    cases bkvs with
    | nil => exact absurd rfl hne
    | cons kv rest => rfl
  simp only [plainRow, h1, h2, except_bind_ok, pyOr, ht, if_true, _from_json_obj, hkey,
    Option.getD_none, pySubscriptZero, except_bind_error]

/-- Claim C9 fails at a concrete input: with the nested header, a node
body without an "outputs" key makes decode raise a TypeError
(subscripting the absent value) instead of yielding an absence. -/
theorem C9_counterexample :
    parse_input nestedCtx [.obj [("nodeA", .obj [("x", .int 1)])]] =
      .error "TypeError: object is not subscriptable" := rfl

/-- Claim C9, amended: a wire body lacking the looked-up
"inputs"/"outputs" key yields an absence (None), not an error, from the
single-body extraction itself; but on every decode path — standalone,
non-nested workflow, and nested workflow — the caller then subscripts
the absent value with `[0]`, so decode raises a TypeError. -/
theorem C9_missing_key :
    (∀ (ctx : Context) (bkvs : List (String × JVal)) (key : String),
        alookup bkvs key = none →
        Except.map Prod.snd (_from_json ctx [.obj bkvs] key) = .ok .null) ∧
    (∀ (ctx : Context) (i : Nat) (bkvs : List (String × JVal)),
        ctx.get_request_header i _WorkflowRequestTypeHeader = none → bkvs ≠ [] →
        alookup bkvs "inputs" = none →
        processRow ctx i (.obj [("data", .obj bkvs)]) =
          .error "TypeError: object is not subscriptable") ∧
    (∀ (ctx : Context) (i : Nat) (s : String) (bkvs : List (String × JVal)),
        ctx.get_request_header i _WorkflowRequestTypeHeader = some s → s ≠ "" →
        pyLower s ≠ "nested" → bkvs ≠ [] →
        alookup bkvs "outputs" = none →
        processRow ctx i (.obj [("data", .obj bkvs)]) =
          .error "TypeError: object is not subscriptable") ∧
    (∀ (ctx : Context) (i : Nat) (s n : String) (bkvs : List (String × JVal))
        (rest : List (String × JVal)),
        ctx.get_request_header i _WorkflowRequestTypeHeader = some s → s ≠ "" →
        pyLower s = "nested" → alookup bkvs "outputs" = none →
        processRow ctx i (.obj ((n, .obj bkvs) :: rest)) =
          .error "TypeError: object is not subscriptable") := by
  refine ⟨?_, ?_, ?_, ?_⟩
  · intro ctx bkvs key hkey
    exact _from_json_missing_key ctx bkvs key hkey
  · intro ctx i bkvs hhdr hne hkey
    simp only [processRow, hhdr]
    exact plainRow_missing_key_raises ctx bkvs "inputs" hne hkey
  · intro ctx i s bkvs hhdr hs hlow hne hkey
    simp only [processRow, hhdr]
    rw [if_pos hs, if_neg hlow]
    exact plainRow_missing_key_raises ctx bkvs "outputs" hne hkey
  · intro ctx i s n bkvs rest hhdr hs hlow hkey
    have hEntry : nestedEntry ctx (.obj bkvs) =
        .error "TypeError: object is not subscriptable" := by
      simp only [nestedEntry, _from_json_obj, except_bind_ok, hkey, Option.getD_none,
        pySubscriptZero, except_bind_error]
    simp only [processRow, hhdr]
    rw [if_pos hs, if_pos hlow]
    simp only [nestedRow, hEntry, except_bind_error]

/-- Witness for C9: the tolerant extraction, and concrete raising
instances of all three decode paths. -/
theorem C9_missing_key_witness :
    Except.map Prod.snd (_from_json plainCtx [.obj [("x", .int 1)]] "inputs") = .ok .null ∧
    processRow plainCtx 0 (.obj [("data", .obj [("x", .int 1)])]) =
      .error "TypeError: object is not subscriptable" ∧
    processRow dagCtx 0 (.obj [("data", .obj [("x", .int 1)])]) =
      .error "TypeError: object is not subscriptable" ∧
    processRow nestedCtx 0 (.obj [("nodeA", .obj [("x", .int 1)])]) =
      .error "TypeError: object is not subscriptable" :=
  ⟨C9_missing_key.1 plainCtx [("x", .int 1)] "inputs" rfl,
   C9_missing_key.2.1 plainCtx 0 [("x", .int 1)] rfl (by simp) rfl,
   C9_missing_key.2.2.1 dagCtx 0 "dag" [("x", .int 1)] rfl (by decide) (by decide) (by simp) rfl,
   C9_missing_key.2.2.2 nestedCtx 0 "Nested" "nodeA" [("x", .int 1)] [] rfl (by decide) rfl rfl⟩

/-! ### Claim C10 — the last id wins -/

theorem C10go (ps : List (List (String × JVal))) : ∀ (ctx : Context) (i : Nat),
    (∀ j, ctx.get_request_header j _WorkflowRequestTypeHeader = none) →
    (∀ kvs ∈ ps, ∃ v, alookup kvs "id" = some v) →
    (∀ kvs ∈ ps, ∃ first, pySubscriptZero ((alookup kvs "inputs").getD .null) = .ok first) →
    ps ≠ [] →
    ∃ out kvsL v, ps.getLast? = some kvsL ∧ alookup kvsL "id" = some v ∧
      batchFromJsonGo ctx i (ps.map (fun kvs => .obj [("data", .obj kvs)])) =
        .ok ({ ctx with input_request_id := some v }, out) := by
  induction ps with
  | nil => intro ctx i _ _ _ hne; exact absurd rfl hne
  | cons kvs rest ih =>
    intro ctx i hhdr hids hins _
    obtain ⟨v1, hv1⟩ := hids kvs (List.mem_cons_self _ _)
    obtain ⟨first1, hf1⟩ := hins kvs (List.mem_cons_self _ _)
    have hstep := processRow_data_obj ctx i kvs v1 first1 (hhdr i) hv1 hf1
    cases rest with
    | nil =>
      refine ⟨[first1], kvs, v1, rfl, hv1, ?_⟩
      simp only [List.map_cons, List.map_nil, batchFromJsonGo, hstep]
    | cons kvs2 rest2 =>
      have hhdr1 : ∀ j, Context.get_request_header { ctx with input_request_id := some v1 } j
          _WorkflowRequestTypeHeader = none := fun j => hhdr j
      obtain ⟨out, kvsL, v, hL, hvL, hgo⟩ := ih { ctx with input_request_id := some v1 } (i + 1)
        hhdr1 (fun q hq => hids q (List.mem_cons_of_mem _ hq))
        (fun q hq => hins q (List.mem_cons_of_mem _ hq)) (by simp)
      refine ⟨first1 :: out, kvsL, v, ?_, hvL, ?_⟩
      · rw [List.getLast?_cons_cons]
        exact hL
      · simp only [List.map_cons, batchFromJsonGo] at hgo
        simp only [List.map_cons, batchFromJsonGo, hstep, hgo]

/-- Claim C10: when every row's body on the standalone path carries an
"id", the pending identifier left by parse_input is the id of the last
row — each later row overwrites the earlier value — and a subsequent
successful format_output emits exactly that id. -/
theorem C10_last_id_wins (ctx : Context) (ps : List (List (String × JVal)))
    (hhdr : ∀ j, ctx.get_request_header j _WorkflowRequestTypeHeader = none)
    (hids : ∀ kvs ∈ ps, ∃ v, alookup kvs "id" = some v)
    (hins : ∀ kvs ∈ ps, ∃ first, pySubscriptZero ((alookup kvs "inputs").getD .null) = .ok first)
    (hne : ps ≠ []) :
    ∃ out kvsL v, ps.getLast? = some kvsL ∧ alookup kvsL "id" = some v ∧
      parse_input ctx (ps.map (fun kvs => .obj [("data", .obj kvs)])) =
        .ok ({ ctx with input_request_id := some v }, out) ∧
      ∀ d ctx2 r, format_output { ctx with input_request_id := some v } d = .ok (ctx2, r) →
        responseId r = v := by
  obtain ⟨out, kvsL, v, h1, h2, h3⟩ := C10go ps ctx 0 hhdr hids hins hne
  exact ⟨out, kvsL, v, h1, h2, h3,
    fun d ctx2 r h => (format_output_pending _ v d ctx2 r rfl h).1⟩

/-- Witness for C10: two rows with ids "first" and "last"; the pending
identifier ends up "last". -/
theorem C10_last_id_wins_witness :
    ∃ out kvsL v,
      ([[("id", JVal.str "first"), ("inputs", JVal.arr [.int 1])],
        [("id", JVal.str "last"), ("inputs", JVal.arr [.int 2])]] :
        List (List (String × JVal))).getLast? = some kvsL ∧
      alookup kvsL "id" = some v ∧
      parse_input plainCtx
          (([[("id", JVal.str "first"), ("inputs", JVal.arr [.int 1])],
             [("id", JVal.str "last"), ("inputs", JVal.arr [.int 2])]] :
            List (List (String × JVal))).map (fun kvs => .obj [("data", .obj kvs)])) =
        .ok ({ plainCtx with input_request_id := some v }, out) ∧
      ∀ d ctx2 r, format_output { plainCtx with input_request_id := some v } d = .ok (ctx2, r) →
        responseId r = v :=
  C10_last_id_wins plainCtx
    [[("id", .str "first"), ("inputs", .arr [.int 1])],
     [("id", .str "last"), ("inputs", .arr [.int 2])]]
    (fun j => rfl)
    (by intro kvs hk; fin_cases hk; exacts [⟨_, rfl⟩, ⟨_, rfl⟩])
    (by intro kvs hk; fin_cases hk; exacts [⟨_, rfl⟩, ⟨_, rfl⟩])
    (by simp)

/-! ### Claim C8 — order preservation of `parse_input`

The decoded value at a batch position depends on the row and on the
workflow header looked up at that same position, but not on the threaded
`input_request_id` side effects.  The `...Val` functions below are the
value components of the corresponding decode steps; the `_snd` lemmas
prove the correspondence. -/

/-- The value component of `_from_json` (the context is only written,
never read). -/
def _from_json_val (body_list : List JVal) (inputs_key : String) : Except String JVal :=
  match body_list with
  | [] => .error "IndexError: list index out of range"
  | b :: _ =>
    match b with
    | .obj _ =>
      match body_list.mapM (fun x => dictGet x inputs_key) with
      | .ok gets => .ok (gets.headD .null)
      | .error e => .error e
    | _ => .error "TypeError: argument is not a dict"

theorem _from_json_snd (ctx : Context) (body_list : List JVal) (key : String) :
    Except.map Prod.snd (_from_json ctx body_list key) = _from_json_val body_list key := by
  cases body_list with
  | nil => rfl
  | cons b rest =>
    cases b with
    | obj kvs =>
      simp only [_from_json, _from_json_val]
      cases hm : (JVal.obj kvs :: rest).mapM (fun x => dictGet x key) with
      | error e => simp [hm, Except.map]
      | ok gets => simp [hm, Except.map]
    | null => rfl
    | bool b => rfl
    | int n => rfl
    | str s => rfl
    | arr xs => rfl

/-- The value component of `nestedEntry`. -/
def nestedEntryVal (body : JVal) : Except String JVal :=
  match body with
  | .obj kvs => do
    let first ← pySubscriptZero ((alookup kvs "outputs").getD .null)
    dictGet first "data"
  | _ => .error "TypeError: argument is not a dict"

theorem nestedEntry_snd (ctx : Context) (body : JVal) :
    Except.map Prod.snd (nestedEntry ctx body) = nestedEntryVal body := by
  cases body with
  | obj kvs =>
    simp only [nestedEntry, nestedEntryVal, _from_json_obj, except_bind_ok]
    cases hp : pySubscriptZero ((alookup kvs "outputs").getD .null) with
    | error e => simp [hp, except_bind_error, Except.map]
    | ok first =>
      simp only [hp, except_bind_ok]
      cases hd : dictGet first "data" with
      | error e => simp [hd, except_bind_error, Except.map]
      | ok d => simp [hd, except_bind_ok, Except.map]
  | null => rfl
  | bool b => rfl
  | int n => rfl
  | str s => rfl
  | arr xs => rfl

/-- The value component of `nestedRow`. -/
def nestedRowVal : List (String × JVal) → Except String (List (String × JVal))
  | [] => .ok []
  | (n, body) :: rest =>
    match nestedEntryVal body with
    | .error e => .error e
    | .ok d =>
      match nestedRowVal rest with
      | .error e => .error e
      | .ok tail => .ok ((n, d) :: tail)

theorem nestedRow_snd (kvs : List (String × JVal)) : ∀ ctx : Context,
    Except.map Prod.snd (nestedRow ctx kvs) = nestedRowVal kvs := by
  induction kvs with
  | nil => intro ctx; rfl
  | cons p rest ih =>
    intro ctx
    obtain ⟨n, body⟩ := p
    simp only [nestedRow, nestedRowVal]
    cases he : nestedEntry ctx body with
    | error e =>
      have hv := nestedEntry_snd ctx body
      rw [he] at hv
      simp only [Except.map] at hv
      rw [← hv]
      simp [he, except_bind_error, Except.map]
    | ok p1 =>
      obtain ⟨ctx1, d⟩ := p1
      have hv := nestedEntry_snd ctx body
      rw [he] at hv
      simp only [Except.map] at hv
      rw [← hv]
      simp only [he, except_bind_ok]
      cases hr : nestedRow ctx1 rest with
      | error e =>
        have hv2 := ih ctx1
        rw [hr] at hv2
        simp only [Except.map] at hv2
        rw [← hv2]
        simp [hr, except_bind_error, Except.map]
      | ok q =>
        obtain ⟨ctx2, tail⟩ := q
        have hv2 := ih ctx1
        rw [hr] at hv2
        simp only [Except.map] at hv2
        rw [← hv2]
        simp [hr, except_bind_ok, Except.map]

/-- The value component of `plainRow`: the extracted value, then the
call-site `[0]` subscript. -/
def plainRowVal (row : JVal) (key : String) : Except String JVal :=
  match dictGet row "data" with
  | .error e => .error e
  | .ok d =>
    match dictGet row "body" with
    | .error e => .error e
    | .ok b =>
      match _from_json_val [pyOr d b] key with
      | .error e => .error e
      | .ok w => pySubscriptZero w

theorem plainRow_snd (ctx : Context) (row : JVal) (key : String) :
    Except.map Prod.snd (plainRow ctx row key) = plainRowVal row key := by
  unfold plainRow plainRowVal
  cases hd : dictGet row "data" with
  | error e => simp [hd, except_bind_error, Except.map]
  | ok d =>
    simp only [hd, except_bind_ok]
    cases hb : dictGet row "body" with
    | error e => simp [hb, except_bind_error, Except.map]
    | ok b =>
      simp only [hb, except_bind_ok]
      have hv := _from_json_snd ctx [pyOr d b] key
      cases hf : _from_json ctx [pyOr d b] key with
      | error e =>
        rw [hf] at hv
        simp only [Except.map] at hv
        rw [← hv]
        simp [hf, except_bind_error, Except.map]
      | ok p =>
        obtain ⟨ctxA, w⟩ := p
        rw [hf] at hv
        simp only [Except.map] at hv
        rw [← hv]
        simp only [hf, except_bind_ok]
        cases hp : pySubscriptZero w with
        | error e => simp [hp, except_bind_error, Except.map]
        | ok first => simp [hp, except_bind_ok, Except.map]

/-- The decoded value at one batch position as a function of the row and
of the workflow header at that position alone. -/
def rowVal (hdr : Option String) (row : JVal) : Except String JVal :=
  match hdr with
  | some wrt =>
    if wrt ≠ "" then
      if pyLower wrt = "nested" then
        match row with
        | .obj kvs =>
          match nestedRowVal kvs with
          | .ok out => .ok (.obj out)
          | .error e => .error e
        | _ => .error "AttributeError: no attribute items"
      else plainRowVal row "outputs"
    else plainRowVal row "inputs"
  | none => plainRowVal row "inputs"

theorem processRow_snd (ctx : Context) (i : Nat) (row : JVal) :
    Except.map Prod.snd (processRow ctx i row) =
      rowVal (ctx.get_request_header i _WorkflowRequestTypeHeader) row := by
  cases hh : ctx.get_request_header i _WorkflowRequestTypeHeader with
  | none =>
    simp only [processRow, rowVal, hh]
    exact plainRow_snd ctx row "inputs"
  | some wrt =>
    simp only [processRow, rowVal, hh]
    by_cases hw : wrt ≠ ""
    · rw [if_pos hw, if_pos hw]
      by_cases hn : pyLower wrt = "nested"
      · rw [if_pos hn, if_pos hn]
        cases row with
        | obj kvs =>
          have hv := nestedRow_snd kvs ctx
          cases hr : nestedRow ctx kvs with
          | error e =>
            rw [hr] at hv
            simp only [Except.map] at hv
            simp [hr, ← hv, Except.map]
          | ok p =>
            obtain ⟨ctx1, out⟩ := p
            rw [hr] at hv
            simp only [Except.map] at hv
            simp [hr, ← hv, Except.map]
        | null => rfl
        | bool b => rfl
        | int n => rfl
        | str s => rfl
        | arr xs => rfl
      · rw [if_neg hn, if_neg hn]
        exact plainRow_snd ctx row "outputs"
    · rw [if_neg hw, if_neg hw]
      exact plainRow_snd ctx row "inputs"

/-- Decode steps may write `input_request_id` but never touch the
headers. -/
theorem _from_json_headers (ctx : Context) (bl : List JVal) (key : String)
    (ctx' : Context) (v : JVal) (h : _from_json ctx bl key = .ok (ctx', v)) :
    ctx'.headers = ctx.headers := by
  cases bl with
  | nil => exact absurd h (by simp [_from_json])
  | cons b rest =>
    cases b with
    | obj kvs =>
      simp only [_from_json] at h
      cases hm : (JVal.obj kvs :: rest).mapM (fun x => dictGet x key) with
      | error e => rw [hm] at h; exact absurd h (by simp)
      | ok gets =>
        rw [hm] at h
        obtain ⟨hc, -⟩ := Prod.mk.injEq .. ▸ Except.ok.inj h
        cases halo : alookup kvs "id" with
        | some v0 => rw [halo] at hc; rw [← hc]
        | none => rw [halo] at hc; rw [← hc]
    | null => exact absurd h (by simp [_from_json])
    | bool b => exact absurd h (by simp [_from_json])
    | int n => exact absurd h (by simp [_from_json])
    | str s => exact absurd h (by simp [_from_json])
    | arr xs => exact absurd h (by simp [_from_json])

theorem nestedEntry_headers (ctx : Context) (body : JVal) (ctx' : Context) (v : JVal)
    (h : nestedEntry ctx body = .ok (ctx', v)) : ctx'.headers = ctx.headers := by
  unfold nestedEntry at h
  cases hf : _from_json ctx [body] "outputs" with
  | error e => simp only [hf, except_bind_error] at h; exact absurd h (by simp)
  | ok p =>
    obtain ⟨ctxA, w⟩ := p
    simp only [hf, except_bind_ok] at h
    cases hp : pySubscriptZero w with
    | error e => simp only [hp, except_bind_error] at h; exact absurd h (by simp)
    | ok first =>
      simp only [hp, except_bind_ok] at h
      cases hd : dictGet first "data" with
      | error e => simp only [hd, except_bind_error] at h; exact absurd h (by simp)
      | ok d =>
        simp only [hd, except_bind_ok] at h
        obtain ⟨hc, -⟩ := Prod.mk.injEq .. ▸ Except.ok.inj h
        rw [← hc]
        exact _from_json_headers ctx [body] "outputs" ctxA w hf

theorem nestedRow_headers (kvs : List (String × JVal)) : ∀ (ctx ctx' : Context)
    (out : List (String × JVal)), nestedRow ctx kvs = .ok (ctx', out) →
    ctx'.headers = ctx.headers := by
  induction kvs with
  | nil =>
    intro ctx ctx' out h
    obtain ⟨hc, -⟩ := Prod.mk.injEq .. ▸ Except.ok.inj h
    rw [← hc]
  | cons p rest ih =>
    intro ctx ctx' out h
    obtain ⟨n, body⟩ := p
    simp only [nestedRow] at h
    cases he : nestedEntry ctx body with
    | error e => rw [he, except_bind_error] at h; exact absurd h (by simp)
    | ok p1 =>
      obtain ⟨ctx1, d⟩ := p1
      rw [he, except_bind_ok] at h
      cases hr : nestedRow ctx1 rest with
      | error e => rw [hr, except_bind_error] at h; exact absurd h (by simp)
      | ok q =>
        obtain ⟨ctx2, tail⟩ := q
        rw [hr, except_bind_ok] at h
        obtain ⟨hc, -⟩ := Prod.mk.injEq .. ▸ Except.ok.inj h
        rw [← hc]
        exact (ih ctx1 ctx2 tail hr).trans (nestedEntry_headers ctx body ctx1 d he)

theorem plainRow_headers (ctx : Context) (row : JVal) (key : String)
    (ctx' : Context) (v : JVal) (h : plainRow ctx row key = .ok (ctx', v)) :
    ctx'.headers = ctx.headers := by
  unfold plainRow at h
  cases hd : dictGet row "data" with
  | error e => simp only [hd, except_bind_error] at h; exact absurd h (by simp)
  | ok d =>
    simp only [hd, except_bind_ok] at h
    cases hb : dictGet row "body" with
    | error e => simp only [hb, except_bind_error] at h; exact absurd h (by simp)
    | ok b =>
      simp only [hb, except_bind_ok] at h
      cases hf : _from_json ctx [pyOr d b] key with
      | error e => simp only [hf, except_bind_error] at h; exact absurd h (by simp)
      | ok p =>
        obtain ⟨ctxA, w⟩ := p
        simp only [hf, except_bind_ok] at h
        cases hp : pySubscriptZero w with
        | error e => simp only [hp, except_bind_error] at h; exact absurd h (by simp)
        | ok first =>
          simp only [hp, except_bind_ok] at h
          obtain ⟨hc, -⟩ := Prod.mk.injEq .. ▸ Except.ok.inj h
          rw [← hc]
          exact _from_json_headers ctx [pyOr d b] key ctxA w hf

theorem processRow_headers (ctx : Context) (i : Nat) (row : JVal)
    (ctx' : Context) (v : JVal) (h : processRow ctx i row = .ok (ctx', v)) :
    ctx'.headers = ctx.headers := by
  cases hh : ctx.get_request_header i _WorkflowRequestTypeHeader with
  | none =>
    simp only [processRow, hh] at h
    exact plainRow_headers ctx row "inputs" ctx' v h
  | some wrt =>
    simp only [processRow, hh] at h
    by_cases hw : wrt ≠ ""
    · rw [if_pos hw] at h
      by_cases hn : pyLower wrt = "nested"
      · rw [if_pos hn] at h
        cases row with
        | obj kvs =>
          cases hr : nestedRow ctx kvs with
          | error e => simp only [hr] at h; exact absurd h (by simp)
          | ok p =>
            obtain ⟨ctx1, out⟩ := p
            simp only [hr] at h
            obtain ⟨hc, -⟩ := Prod.mk.injEq .. ▸ Except.ok.inj h
            rw [← hc]
            exact nestedRow_headers kvs ctx ctx1 out hr
        | null => exact absurd h (by simp)
        | bool b => exact absurd h (by simp)
        | int n => exact absurd h (by simp)
        | str s => exact absurd h (by simp)
        | arr xs => exact absurd h (by simp)
      · rw [if_neg hn] at h
        exact plainRow_headers ctx row "outputs" ctx' v h
    · rw [if_neg hw] at h
      exact plainRow_headers ctx row "inputs" ctx' v h

theorem get_request_header_congr {ctx ctxB : Context} (h : ctxB.headers = ctx.headers)
    (i : Nat) (name : String) :
    ctxB.get_request_header i name = ctx.get_request_header i name := by
  unfold Context.get_request_header
  rw [h]

/-- The loop invariant behind claim C8: a successful run of the decode
loop preserves the headers, yields one output per row, and the output at
offset `j` is the decode of row `j` under the header at index `i + j` of
the starting context. -/
theorem batchFromJsonGo_spec (rows : List JVal) : ∀ (ctx ctx' : Context) (i : Nat)
    (out : List JVal), batchFromJsonGo ctx i rows = .ok (ctx', out) →
    ctx'.headers = ctx.headers ∧ out.length = rows.length ∧
    ∀ j (hj : j < rows.length) (hj' : j < out.length),
      rowVal (ctx.get_request_header (i + j) _WorkflowRequestTypeHeader) (rows.get ⟨j, hj⟩) =
        .ok (out.get ⟨j, hj'⟩) := by
  induction rows with
  | nil =>
    intro ctx ctx' i out h
    simp only [batchFromJsonGo] at h
    obtain ⟨hc, ho⟩ := Prod.mk.injEq .. ▸ Except.ok.inj h
    subst hc
    rw [← ho]
    exact ⟨rfl, rfl, fun j hj => absurd hj (by simp)⟩
  | cons row rest ih =>
    intro ctx ctx' i out h
    simp only [batchFromJsonGo] at h
    cases hp : processRow ctx i row with
    | error e => simp only [hp] at h; exact absurd h (by simp)
    | ok p =>
      obtain ⟨ctx1, v⟩ := p
      simp only [hp] at h
      cases hr : batchFromJsonGo ctx1 (i + 1) rest with
      | error e => simp only [hr] at h; exact absurd h (by simp)
      | ok q =>
        obtain ⟨ctx2, vs⟩ := q
        simp only [hr] at h
        obtain ⟨hc, ho⟩ := Prod.mk.injEq .. ▸ Except.ok.inj h
        subst hc
        obtain ⟨ihh, ihlen, ihval⟩ := ih ctx1 ctx2 (i + 1) vs hr
        have hh1 : ctx1.headers = ctx.headers := processRow_headers ctx i row ctx1 v hp
        refine ⟨ihh.trans hh1, ?_, ?_⟩
        · rw [← ho]
          simp [ihlen]
        · intro j hj hj'
          subst ho
          cases j with
          | zero =>
            have hv := processRow_snd ctx i row
            rw [hp] at hv
            simp only [Except.map] at hv
            simpa using hv.symm
          | succ jj =>
            have hjj : jj < rest.length := by simpa using hj
            have hjj' : jj < vs.length := by simpa using hj'
            have := ihval jj hjj hjj'
            rw [get_request_header_congr hh1] at this
            rw [show i + (jj + 1) = i + 1 + jj by omega]
            simpa using this

/-- Claim C8: a successful `parse_input` returns exactly one output
entry per input batch position, preserving order — the entry at position
`j` is the decode of row `j` using the workflow header looked up at that
same index `j`. -/
theorem C8_parse_order (ctx ctx' : Context) (rows out : List JVal)
    (h : parse_input ctx rows = .ok (ctx', out)) :
    out.length = rows.length ∧
    ∀ j (hj : j < rows.length) (hj' : j < out.length),
      Except.map Prod.snd (processRow ctx j (rows.get ⟨j, hj⟩)) = .ok (out.get ⟨j, hj'⟩) := by
  obtain ⟨-, h2, h3⟩ := batchFromJsonGo_spec rows ctx ctx' 0 out h
  refine ⟨h2, fun j hj hj' => ?_⟩
  rw [processRow_snd]
  have := h3 j hj hj'
  simpa using this

/-- Witness for C8: a concrete two-row batch decodes position by
position, in order. -/
theorem C8_parse_order_witness :
    ([JVal.int 1, JVal.int 2] : List JVal).length =
      ([.obj [("data", .obj [("inputs", .arr [.int 1])])],
        .obj [("body", .obj [("inputs", .arr [.int 2])])]] : List JVal).length ∧
    ∀ j (hj : j < ([.obj [("data", .obj [("inputs", .arr [.int 1])])],
          .obj [("body", .obj [("inputs", .arr [.int 2])])]] : List JVal).length)
      (hj' : j < ([JVal.int 1, JVal.int 2] : List JVal).length),
      Except.map Prod.snd (processRow plainCtx j
          (([.obj [("data", .obj [("inputs", .arr [.int 1])])],
             .obj [("body", .obj [("inputs", .arr [.int 2])])]] : List JVal).get ⟨j, hj⟩)) =
        .ok (([JVal.int 1, JVal.int 2] : List JVal).get ⟨j, hj'⟩) :=
  C8_parse_order plainCtx plainCtx
    [.obj [("data", .obj [("inputs", .arr [.int 1])])],
     .obj [("body", .obj [("inputs", .arr [.int 2])])]]
    [.int 1, .int 2] rfl

end KServeV2
